import Mathlib

/-!
Shallow embedding of the tcpkgman remote-control layer
(src/tcpkgman/ads_dll.py, src/tcpkgman/ads_interface.py,
src/tcpkgman/ads_ssh_key_manager.py) together with theorems settling the
behavioural claims about it.

Python strings are modelled as `List Char`; byte strings as `List Nat`
(each entry one byte); machine integers as `Nat`/`Int` with explicit
truncation where the runtime truncates.  Fallible calls are modelled with
`Except`/`Option`, and the effectful methods are modelled as functions of
an explicit environment describing the outcome of each remote exchange,
returning the observable result together with counters/traces of the
effects the claims talk about (writes, sleeps, subprocess attempts).
-/

/-! ## Python string primitives used by the source -/

/-- Whitespace characters (ASCII range) as treated by Python's `str.strip()`
and `str.split(None)`. -/
def isPySpace (c : Char) : Bool :=
  c = ' ' || c = '\t' || c = '\n' || c = '\r' || c = '\x0b' || c = '\x0c'

/-- Python `str.strip()`: remove leading and trailing whitespace. -/
def pyStrip (s : List Char) : List Char :=
  ((s.dropWhile isPySpace).reverse.dropWhile isPySpace).reverse

/-- Digit-group tail of a Python decimal integer literal: digits with single
underscores allowed only between digits (as accepted by `int("1_0")`).
`acc` is the value of the digits already consumed. -/
def pyDigitsAux : List Char → Nat → Option Nat
  | [], acc => some acc
  | c :: cs, acc =>
    if c.isDigit then pyDigitsAux cs (acc * 10 + (c.toNat - 48))
    else if c = '_' then
      match cs with
      | [] => none
      | c2 :: cs2 =>
        if c2.isDigit then pyDigitsAux cs2 (acc * 10 + (c2.toNat - 48)) else none
    else none

/-- Digit group of a Python decimal integer literal: nonempty, must start
with a digit (a leading underscore is rejected). -/
def pyDigitsStart (s : List Char) : Option Nat :=
  match s with
  | [] => none
  | c :: _ => if c.isDigit then pyDigitsAux s 0 else none

/-- Model of Python `int(s)` for base-10 string input: surrounding
whitespace is stripped, an optional single sign is allowed, and the rest
must be a nonempty digit group; any other shape raises `ValueError`,
modelled as `none`.  (Non-ASCII digits are out of scope of the inputs the
program handles.) -/
def pyInt (s : List Char) : Option Int :=
  match pyStrip s with
  | '+' :: rest => (pyDigitsStart rest).map (fun n => (n : Int))
  | '-' :: rest => (pyDigitsStart rest).map (fun n => -(n : Int))
  | rest => (pyDigitsStart rest).map (fun n => (n : Int))

/-- Line-boundary characters recognised by Python `str.splitlines()`. -/
def isLineBreak (c : Char) : Bool :=
  c = '\n' || c = '\r' || c = '\x0b' || c = '\x0c' ||
  c = '\x1c' || c = '\x1d' || c = '\x1e' || c = '\x85' ||
  c = '\u2028' || c = '\u2029'

/-- Worker for `splitlines`: `acc` holds the current line reversed.
A `"\r\n"` pair counts as a single boundary; a nonempty trailing segment
becomes a final line, but no empty line is produced at the very end. -/
def splitlinesAux : List Char → List Char → List (List Char)
  | [], [] => []
  | [], acc => [acc.reverse]
  | '\r' :: '\n' :: rest, acc => acc.reverse :: splitlinesAux rest []
  | c :: rest, acc =>
    if isLineBreak c then acc.reverse :: splitlinesAux rest []
    else splitlinesAux rest (c :: acc)

/-- Python `str.splitlines()`. -/
def splitlines (s : List Char) : List (List Char) :=
  splitlinesAux s []

/-- Python `str.split(None, maxsplit)`: runs of whitespace separate tokens,
leading whitespace is skipped, and once `maxsplit` splits have been made
the remainder (with its leading whitespace stripped) is returned whole. -/
def pySplitWs : List Char → Nat → List (List Char)
  | s, 0 =>
    let s1 := s.dropWhile isPySpace
    if s1 = [] then [] else [s1]
  | s, maxsplit + 1 =>
    let s1 := s.dropWhile isPySpace
    if s1 = [] then []
    else
      let tok := s1.takeWhile (fun c => !(isPySpace c))
      let rest := s1.dropWhile (fun c => !(isPySpace c))
      tok :: pySplitWs rest maxsplit

/-! ## Model of src/tcpkgman/ads_dll.py -/

/-- The per-element `int(p)` of the comprehension
`[int(p) for p in net_id.split('.')]`: the whole comprehension raises
(`none`) as soon as one component fails to parse. -/
def mapPyInt : List (List Char) → Option (List Int)
  | [] => some []
  | p :: ps =>
    match pyInt p, mapPyInt ps with
    | some v, some vs => some (v :: vs)
    | _, _ => none

/-- Model of `AmsNetId.from_string` (src/tcpkgman/ads_dll.py lines 20-29).
The string is split on dots, each component is parsed with `int`, and a
component count other than 6 raises `ValueError`.  A successful parse
stores each component into a slot of a ctypes `c_ubyte` array; ctypes
integer fields perform no overflow checking and store the value truncated
modulo 256, which `Int.emod` reproduces for negative values as well.
The result is the list of the 6 stored byte values. -/
def AmsNetId.from_string (s : List Char) : Option (List Nat) :=
  match mapPyInt (List.splitOn '.' s) with
  | none => none
  | some parts =>
    if parts.length ≠ 6 then none
    else some (parts.map (fun v => (v % 256).toNat))

/-! ## Model of src/tcpkgman/ads_interface.py -/

def SYSTEMSERVICE_NOSEEK : Int := -1
def SYSTEMSERVICE_FOPEN : Nat := 120
def SYSTEMSERVICE_FREAD : Nat := 122
def SYSTEMSERVICE_FWRITE : Nat := 123
def SYSTEMSERVICE_FGETSTATUS : Nat := 134
def SYSTEMSERVICE_STARTPROCESS : Nat := 500

/-- UTF-8 encoding of a single character, as produced by Python
`str.encode('utf-8')`. -/
def utf8Char (c : Char) : List Nat :=
  let n := c.toNat
  if n < 128 then [n]
  else if n < 2048 then [192 + n / 64, 128 + n % 64]
  else if n < 65536 then [224 + n / 4096, 128 + n / 64 % 64, 128 + n % 64]
  else [240 + n / 262144, 128 + n / 4096 % 64, 128 + n / 64 % 64, 128 + n % 64]

/-- UTF-8 encoding of a string. -/
def utf8 (s : List Char) : List Nat :=
  (s.map utf8Char).flatten

/-- `struct.pack('<I', n)`: one little-endian unsigned 32-bit value. -/
def u32le (n : Nat) : List Nat :=
  [n % 256, n / 256 % 256, n / 65536 % 256, n / 16777216 % 256]

/-- Python try/finally as an `Except` combinator: the finally block runs on
every exit path, and an exception it raises is the one the caller
observes (replacing any in-flight exception). -/
def pyFinally {α : Type} (body : Except Nat α) (fin : Except Nat Unit) : Except Nat α :=
  match fin with
  | .error e => .error e
  | .ok _ => body

/-- Outcomes of the port bracket performed by `ADSInterface._connect`
(ads_interface.py lines 102-110): `port_open` either returns a port number
or raises, and `port_close` in the finally block may itself raise. -/
structure TransportEnv where
  portOpen : Except Nat Nat
  portClose : Except Nat Unit

/-- One `with self._connect()` block: open the port, run the body, and
always close in a finally. -/
def connectRun {α : Type} (env : TransportEnv) (body : Nat → Except Nat α) : Except Nat α :=
  match env.portOpen with
  | .error e => .error e
  | .ok port => pyFinally (body port) env.portClose

/-- Model of `file_exists` (ads_interface.py lines 144-152): `getStatus` is
the outcome of the FGETSTATUS `read_write` exchange (its `ok` payload is
the returned bytes).  The surrounding `try` turns any escaping exception
into `False`. -/
def file_exists (env : TransportEnv) (getStatus : Except Nat (List Nat)) : Bool :=
  match connectRun env (fun _ => getStatus) with
  | .ok _ => true
  | .error _ => false

/-- One `dll.write` call as recorded by the file-handle model:
`(index_group, index_offset, data)`.  For the close path the group slot
carries the file handle and the offset is the no-seek sentinel. -/
structure WriteCall where
  group : Nat
  offset : Int
  data : List Nat

/-- Model of the `_file_handle` context manager (ads_interface.py lines
112-126) run around a body: `openResult` is the outcome of the FOPEN
`read_write` (its `ok` value the decoded 32-bit handle), `body h` the
outcome of the `with` body for handle `h`, and `closeOutcome` the outcome
of the close `dll.write`.  Returns the outcome the caller observes
together with the list of close write calls attempted; the inner
`try/except pass` suppresses `closeOutcome` entirely. -/
def file_handle (openResult : Except Nat Nat) (body : Nat → Except Nat (List Nat))
    (closeOutcome : Except Nat Unit) : Except Nat (List Nat) × List WriteCall :=
  match openResult with
  | .error e => (.error e, [])
  | .ok handle =>
    match closeOutcome with
    | .ok _ => (body handle, [⟨handle, SYSTEMSERVICE_NOSEEK, []⟩])
    | .error _ => (body handle, [⟨handle, SYSTEMSERVICE_NOSEEK, []⟩])

/-- The STARTPROCESS payload built by `run_command` (ads_interface.py lines
162-167): `struct.pack('<III', len(process), len(dir), len(cmdline))`
followed by the three UTF-8 strings, each NUL-terminated. -/
def startProcessData (process_str working_dir cmdline_str : List Char) : List Nat :=
  let process_bytes := utf8 process_str
  let dir_bytes := utf8 working_dir
  let cmdline_bytes := utf8 cmdline_str
  u32le process_bytes.length ++ u32le dir_bytes.length ++ u32le cmdline_bytes.length
    ++ process_bytes ++ [0] ++ dir_bytes ++ [0] ++ cmdline_bytes ++ [0]

/-- The `index_offset` computed by `run_command` (ads_interface.py line
170): `(timeout_ms & 0xFFFF) | (0x10000 if hide_window else 0)`. -/
def startProcessOffset (timeout_ms : Nat) (hide_window : Bool) : Nat :=
  (timeout_ms &&& 65535) ||| (if hide_window then 65536 else 0)

/-- The command parsing of `run_command` (ads_interface.py lines 158-160):
`parts = command.split(None, 1)`, then
`process_str = parts[0] if parts else command` and
`cmdline_str = parts[1] if len(parts) > 1 else ""`. -/
def runCommandParts (command : List Char) : List Char × List Char :=
  match pySplitWs command 1 with
  | [] => (command, [])
  | [p] => (p, [])
  | p :: c :: _ => (p, c)

/-- Model of `run_command` (ads_interface.py lines 154-172): the single
`dll.write` call it issues, as `(index_group, index_offset, data)`. -/
def run_command (command working_dir : List Char) (timeout_ms : Nat)
    (hide_window : Bool) : Nat × Nat × List Nat :=
  let parts := runCommandParts command
  (SYSTEMSERVICE_STARTPROCESS, startProcessOffset timeout_ms hide_window,
    startProcessData parts.1 working_dir parts.2)

/-- Reads one little-endian u32 from the front of a byte list (the offset
arithmetic a receiver of the STARTPROCESS record performs). -/
def readU32le (bs : List Nat) : Option (Nat × List Nat) :=
  match bs with
  | b0 :: b1 :: b2 :: b3 :: rest =>
    some (b0 + 256 * b1 + 65536 * b2 + 16777216 * b3, rest)
  | _ => none

/-- Reads a string of `len` bytes followed by its NUL terminator. -/
def readNulStr (len : Nat) (bs : List Nat) : Option (List Nat × List Nat) :=
  let s := bs.take len
  if s.length = len then
    match bs.drop len with
    | 0 :: rest => some (s, rest)
    | _ => none
  else none

/-- Decodes a STARTPROCESS record by offset arithmetic: three u32 length
prefixes, then the three NUL-terminated strings of exactly those
lengths. -/
def decodeStartProcess (bs : List Nat) : Option (List Nat × List Nat × List Nat) :=
  match readU32le bs with
  | none => none
  | some (l1, r1) =>
    match readU32le r1 with
    | none => none
    | some (l2, r2) =>
      match readU32le r2 with
      | none => none
      | some (l3, r3) =>
        match readNulStr l1 r3 with
        | none => none
        | some (s1, r4) =>
          match readNulStr l2 r4 with
          | none => none
          | some (s2, r5) =>
            match readNulStr l3 r5 with
            | none => none
            | some (s3, r6) =>
              if r6 = [] then some (s1, s2, s3) else none

/-! ## Model of src/tcpkgman/ads_ssh_key_manager.py -/

/-- Model of `_is_key_present` (ads_ssh_key_manager.py lines 303-322):
the candidate key is stripped, and each line of the authorized-keys
content is compared, stripped, for exact equality. -/
def is_key_present (authorized_keys_content key_content : List Char) : Bool :=
  let key := pyStrip key_content
  (splitlines authorized_keys_content).any (fun line => pyStrip line == key)

/-- Model of `copy_ssh_key` (ads_ssh_key_manager.py lines 205-219), from
the point where the local public key file has been read (lines 182-204
only locate and read that file).  `local_key_file` is the raw content of
the local key file (the code strips it); `readAuth` is the outcome of
`read_file` on AUTHORIZED_KEYS_PATH, any exception collapsing to
`Except.error ()`.  The result is the list of `write_file` payloads
issued to AUTHORIZED_KEYS_PATH, in order. -/
def copy_ssh_key (local_key_file : List Char) (readAuth : Except Unit (List Char)) :
    List (List Char) :=
  let key_content := pyStrip local_key_file
  match readAuth with
  | .ok existing_content =>
    if is_key_present existing_content key_content then []
    else [key_content ++ ['\n']]
  | .error _ => [key_content ++ ['\n']]

/-- Model of `_read_sshd_pid` (ads_ssh_key_manager.py lines 324-338):
`readPidFile` is the outcome of `read_file` on PID_FILE_PATH; the content
is stripped and parsed with `int`, any failure collapsing to `none`. -/
def read_sshd_pid (readPidFile : Except Unit (List Char)) : Option Int :=
  match readPidFile with
  | .error _ => none
  | .ok content => pyInt (pyStrip content)

/-- Terminal failures of `_poll_pid_change`, mirroring the two
`RuntimeError` messages (each carries the timeout reported in the
message, and the unchanged PID for the second). -/
inductive PollErr where
  | pidFileMissing (timeout_s : Nat)
  | pidUnchanged (old_pid : Int) (timeout_s : Nat)

/-- Observable outcome of `_poll_pid_change`: the returned PID or the
raised error, together with the number of `time.sleep(1)` calls made. -/
structure PollOutcome where
  result : Except PollErr Int
  sleeps : Nat

/-- Loop of `_poll_pid_change` (ads_ssh_key_manager.py lines 354-374).
`reads k` is the result of the `_read_sshd_pid` call of iteration `k`
(0-based); each iteration sleeps one second and then reads.  `k` is the
index of the next iteration and `fuel` the number of loop iterations
remaining; when the loop is exhausted one final read (at index `k`)
decides the outcome. -/
def pollLoop (old_pid : Int) (reads : Nat → Option Int) : Nat → Nat → PollOutcome
  | k, 0 =>
    match reads k with
    | none => ⟨.error (.pidFileMissing k), k⟩
    | some v =>
      if v = old_pid then ⟨.error (.pidUnchanged old_pid k), k⟩
      else ⟨.ok v, k⟩
  | k, fuel + 1 =>
    match reads k with
    | some v => if v ≠ old_pid then ⟨.ok v, k + 1⟩ else pollLoop old_pid reads (k + 1) fuel
    | none => pollLoop old_pid reads (k + 1) fuel

/-- Model of `_poll_pid_change` (ads_ssh_key_manager.py lines 340-374):
`timeout_s` iterations of sleep-then-read, then a final deciding read at
index `timeout_s`. -/
def poll_pid_change (old_pid : Int) (timeout_s : Nat) (reads : Nat → Option Int) :
    PollOutcome :=
  pollLoop old_pid reads 0 timeout_s

/-- Terminal failures of `restart_openssh_server`: the pre-restart
service-not-running error, or a propagated polling error. -/
inductive RestartErr where
  | serviceNotRunning
  | poll (e : PollErr)

/-- Observable outcome of `restart_openssh_server`: exit code or raised
error, the number of `run_command` restart invocations, and the number of
sleeps performed by the polling loop. -/
structure RestartOutcome where
  result : Except RestartErr Nat
  commands : Nat
  sleeps : Nat

/-- Model of `restart_openssh_server` (ads_ssh_key_manager.py lines
221-245).  `fileReads k` is the outcome of the k-th `read_file` on
PID_FILE_PATH (each `_read_sshd_pid` call performs one): `fileReads 0`
feeds the initial capture and `fileReads (i+1)` the i-th read made inside
(or, last, after) the polling loop.  If the capture is absent the
function raises immediately, before any restart command or sleep;
otherwise it issues exactly one restart command and polls with
`timeout_s = timeout_ms // 1000`. -/
def restart_openssh_server (timeout_ms : Nat)
    (fileReads : Nat → Except Unit (List Char)) : RestartOutcome :=
  match read_sshd_pid (fileReads 0) with
  | none => ⟨.error .serviceNotRunning, 0, 0⟩
  | some old_pid =>
    let timeout_s := timeout_ms / 1000
    let p := poll_pid_change old_pid timeout_s
      (fun i => read_sshd_pid (fileReads (i + 1)))
    match p.result with
    | .ok _ => ⟨.ok 0, 1, p.sleeps⟩
    | .error e => ⟨.error (.poll e), 1, p.sleeps⟩

/-- Outcome of one `subprocess.run` ssh attempt inside
`test_ssh_connection`: the process exited with a return code, the ssh
executable was missing (`FileNotFoundError`), the bounded call timed out
(`subprocess.TimeoutExpired`), or some other exception was raised. -/
inductive SshAttempt where
  | exited (returncode : Int)
  | sshMissing
  | timedOut
  | failed
deriving DecidableEq

/-- Observable outcome of `test_ssh_connection`: `ok b` for a returned
boolean, `error ()` for the propagated `FileNotFoundError`; plus the
number of subprocess attempts made and the number of `time.sleep(1)`
calls. -/
structure SshOutcome where
  result : Except Unit Bool
  attempts : Nat
  sleeps : Nat

/-- Loop of `test_ssh_connection` (ads_ssh_key_manager.py lines 146-180).
`outcomes a` is the result of the subprocess attempt numbered `a`
(attempts are numbered from 1, as in `range(1, max_retries + 1)`);
`attempt` is the current attempt number, `sleeps` the sleeps performed so
far, and `fuel` the remaining iterations (`max_retries - attempt + 1`).
A zero return code returns `True`; a missing ssh executable re-raises
immediately; a timeout or any other exception falls through; and
`time.sleep(1)` runs only when `attempt < max_retries`. -/
def sshLoop (outcomes : Nat → SshAttempt) (max_retries : Nat) :
    Nat → Nat → Nat → SshOutcome
  | attempt, sleeps, 0 => ⟨.ok false, attempt - 1, sleeps⟩
  | attempt, sleeps, fuel + 1 =>
    match outcomes attempt with
    | .exited rc =>
      if rc = 0 then ⟨.ok true, attempt, sleeps⟩
      else
        sshLoop outcomes max_retries (attempt + 1)
          (if attempt < max_retries then sleeps + 1 else sleeps) fuel
    | .sshMissing => ⟨.error (), attempt, sleeps⟩
    | .timedOut =>
      sshLoop outcomes max_retries (attempt + 1)
        (if attempt < max_retries then sleeps + 1 else sleeps) fuel
    | .failed =>
      sshLoop outcomes max_retries (attempt + 1)
        (if attempt < max_retries then sleeps + 1 else sleeps) fuel

/-- Model of `test_ssh_connection` (ads_ssh_key_manager.py lines 128-180):
run the attempt loop for attempts 1 through `max_retries`, returning
`False` if every attempt fails. -/
def test_ssh_connection (outcomes : Nat → SshAttempt) (max_retries : Nat) :
    SshOutcome :=
  sshLoop outcomes max_retries 1 0 max_retries

/-- A subprocess attempt after which `test_ssh_connection` keeps retrying:
a nonzero exit code, a timeout, or any exception other than the missing
executable. -/
def retryableAttempt : SshAttempt → Bool
  | .exited rc => rc ≠ 0
  | .sshMissing => false
  | .timedOut => true
  | .failed => true

/-- The loop-continuation condition of `_poll_pid_change` for one read: the
loop keeps going when the read is absent or equals the captured PID. -/
def pollReadUnchanged (old_pid : Int) : Option Int → Bool
  | none => true
  | some v => v == old_pid

/-! ## Supporting lemmas -/

theorem mapPyInt_length {ps : List (List Char)} {vs : List Int}
    (h : mapPyInt ps = some vs) : vs.length = ps.length := by
  induction ps generalizing vs with
  | nil => simp [mapPyInt] at h; simp [← h]
  | cons p ps ih =>
    simp only [mapPyInt] at h
    cases hp : pyInt p with
    | none => rw [hp] at h; exact absurd h (by simp)
    | some v =>
      rw [hp] at h
      cases hps : mapPyInt ps with
      | none => rw [hps] at h; exact absurd h (by simp)
      | some vs' =>
        rw [hps] at h
        cases h
        simp [ih hps]

/-! ## Claim theorems -/

/-- C3 (amended): for every dotted string splitting into exactly 6
components that each parse as integers in 0-255, `AmsNetId.from_string`
succeeds and the 6 stored byte values equal the 6 parsed components; for
every string whose dot-component count differs from 6 construction fails;
but a component outside 0-255 does not make construction fail: the parsed
components are stored truncated modulo 256 (ctypes `c_ubyte` performs no
range check). -/
theorem from_string_spec :
    (∀ s parts, mapPyInt (List.splitOn '.' s) = some parts → parts.length = 6 →
      (∀ v ∈ parts, 0 ≤ v ∧ v ≤ 255) →
      AmsNetId.from_string s = some (parts.map Int.toNat)) ∧
    (∀ s, (List.splitOn '.' s).length ≠ 6 → AmsNetId.from_string s = none) ∧
    (∀ s parts, mapPyInt (List.splitOn '.' s) = some parts → parts.length = 6 →
      AmsNetId.from_string s = some (parts.map (fun v => (v % 256).toNat))) := by
  refine ⟨?_, ?_, ?_⟩
  · intro s parts hmap hlen hbounds
    unfold AmsNetId.from_string
    rw [hmap]
    simp only [hlen]
    norm_num
    intro v hv
    obtain ⟨h0, h255⟩ := hbounds v hv
    rw [Int.emod_eq_of_lt h0 (by omega)]
  · intro s hlen
    unfold AmsNetId.from_string
    cases hmap : mapPyInt (List.splitOn '.' s) with
    | none => rfl
    | some parts =>
      have := mapPyInt_length hmap
      simp only [this]
      simp [hlen]
  · intro s parts hmap hlen
    unfold AmsNetId.from_string
    rw [hmap]
    simp [hlen]

/-- C3 witness: a concrete in-range 6-component string round-trips. -/
theorem from_string_spec_witness :
    AmsNetId.from_string ("192.168.1.100.1.1".toList) = some [192, 168, 1, 100, 1, 1] :=
  (from_string_spec.1 ("192.168.1.100.1.1".toList)
    [192, 168, 1, 100, 1, 1] (by decide) (by decide) (by decide)).trans (by decide)

/-- C3 counterexample: a component outside 0-255 does not fail -
`"0.0.0.0.0.300"` parses successfully, storing 300 mod 256 = 44. -/
theorem from_string_out_of_range :
    AmsNetId.from_string ("0.0.0.0.0.300".toList) = some [0, 0, 0, 0, 0, 44] ∧
    some [0, 0, 0, 0, 0, 44] ≠ (none : Option (List Nat)) := by
  exact ⟨by decide, by decide⟩

/-- C4: when the initial PID read is absent (file missing, unreadable, or
content failing base-10 integer parsing after trimming, all of which
collapse to `none` in `_read_sshd_pid`), `restart_openssh_server` fails
immediately with the service-not-running error, issuing zero restart
commands and performing zero sleeps. -/
theorem restart_guard (timeout_ms : Nat)
    (fileReads : Nat → Except Unit (List Char))
    (h : read_sshd_pid (fileReads 0) = none) :
    restart_openssh_server timeout_ms fileReads =
      ⟨.error .serviceNotRunning, 0, 0⟩ := by
  unfold restart_openssh_server
  rw [h]

/-- C4 witness: a PID file whose content fails integer parsing triggers the
immediate failure. -/
theorem restart_guard_witness :
    restart_openssh_server 10000 (fun _ => .ok ("not a number".toList)) =
      ⟨.error .serviceNotRunning, 0, 0⟩ :=
  restart_guard 10000 (fun _ => .ok ("not a number".toList)) (by decide)

/-- C5: `file_exists` returns true iff the port open, the get-status
readWrite exchange, and the port close all complete without raising -
regardless of the payload bytes returned - and false whenever any of the
three raises; being `Bool`-valued, it never propagates an exception. -/
theorem file_exists_iff_all_ok (env : TransportEnv)
    (getStatus : Except Nat (List Nat)) :
    file_exists env getStatus = true ↔
      (∃ port, env.portOpen = .ok port) ∧ (∃ bs, getStatus = .ok bs) ∧
        env.portClose = .ok () := by
  obtain ⟨po, pc⟩ := env
  unfold file_exists connectRun pyFinally
  cases po <;> cases pc <;> cases getStatus <;> simp

/-- C8: after a successful remote open returning handle `h`, `_file_handle`
attempts exactly one close - a write call keyed by the handle at the
no-seek sentinel offset with empty payload - whether the body returns
normally or raises (the caller observes exactly the body's outcome), and
the close attempt's own outcome is invisible to the caller. -/
theorem file_handle_close_once (h : Nat) (body : Nat → Except Nat (List Nat))
    (c c' : Except Nat Unit) :
    (file_handle (.ok h) body c).2 = [⟨h, SYSTEMSERVICE_NOSEEK, []⟩] ∧
    (file_handle (.ok h) body c).1 = body h ∧
    file_handle (.ok h) body c = file_handle (.ok h) body c' := by
  cases c <;> cases c' <;> simp [file_handle]

/-- C6: the STARTPROCESS routing offset is the timeout truncated to its low
16 bits, with bit 16 set exactly when hide_window is true; in particular
timeout 10000 with hide_window gives 75536 and timeout 1000 without gives
exactly 1000, bit 16 clear. -/
theorem startProcessOffset_spec :
    (∀ t, startProcessOffset t true = t % 65536 + 65536) ∧
    (∀ t, startProcessOffset t false = t % 65536) ∧
    (∀ cmd wd t h, (run_command cmd wd t h).2.1 = startProcessOffset t h) ∧
    startProcessOffset 10000 true = 75536 ∧
    startProcessOffset 1000 false = 1000 ∧
    (∀ t, Nat.testBit (startProcessOffset t false) 16 = false) := by
  have hmod : ∀ t : Nat, t &&& 65535 = t % 65536 := by
    intro t
    have := Nat.and_pow_two_sub_one_eq_mod t 16
    norm_num at this
    exact this
  have hfalse : ∀ t, startProcessOffset t false = t % 65536 := by
    intro t
    unfold startProcessOffset
    simp [hmod]
  refine ⟨?_, hfalse, ?_, ?_, ?_, ?_⟩
  · intro t
    have h1 : startProcessOffset t true = 65536 ||| t % 65536 := by
      unfold startProcessOffset
      simp [hmod, Nat.lor_comm]
    have hb : t % 65536 < 2 ^ 16 := by
      norm_num
      exact Nat.mod_lt t (by norm_num)
    have h2 := (Nat.mul_add_lt_is_or hb 1).symm
    norm_num at h2
    rw [h1, h2]
    omega
  · intro cmd wd t h
    rfl
  · decide
  · decide
  · intro t
    rw [hfalse t]
    exact Nat.testBit_lt_two_pow (by norm_num [Nat.mod_lt])

/-- Stripping both ends is dropping whitespace at the front and then at the
back. -/
theorem pyStrip_eq_rdrop (s : List Char) :
    pyStrip s = List.rdropWhile isPySpace (List.dropWhile isPySpace s) := rfl

/-- Python `strip` is idempotent. -/
theorem pyStrip_idem (s : List Char) : pyStrip (pyStrip s) = pyStrip s := by
  have key : ∀ X : List Char, List.dropWhile isPySpace X = X →
      List.dropWhile isPySpace (List.rdropWhile isPySpace X) =
        List.rdropWhile isPySpace X := by
    intro X hXfix
    cases hY : List.rdropWhile isPySpace X with
    | nil => simp
    | cons c t =>
      have hYpre : (c :: t) <+: X := hY ▸ List.rdropWhile_prefix isPySpace X
      obtain ⟨r, hr⟩ := hYpre
      by_cases hc : isPySpace c = true
      · exfalso
        rw [← hr, List.cons_append, List.dropWhile_cons_of_pos hc] at hXfix
        have hlen := congrArg List.length hXfix
        have hle := (List.dropWhile_sublist (l := t ++ r) isPySpace).length_le
        simp at hlen hle
        omega
      · exact List.dropWhile_cons_of_neg hc
  have hfix : List.dropWhile isPySpace (List.dropWhile isPySpace s) =
      List.dropWhile isPySpace s := List.dropWhile_idempotent _ _
  calc pyStrip (pyStrip s)
      = List.rdropWhile isPySpace (List.dropWhile isPySpace (pyStrip s)) := rfl
    _ = List.rdropWhile isPySpace (pyStrip s) := by
        rw [pyStrip_eq_rdrop s, key (List.dropWhile isPySpace s) hfix]
    _ = pyStrip s := by
        rw [pyStrip_eq_rdrop s, List.rdropWhile_idempotent]

/-- The line-scan of `_is_key_present` succeeds exactly when some line of
the content strips to the stripped candidate key. -/
theorem is_key_present_iff (content key : List Char) :
    is_key_present content key = true ↔
      ∃ line ∈ splitlines content, pyStrip line = pyStrip key := by
  unfold is_key_present
  rw [List.any_eq_true]
  constructor
  · rintro ⟨line, hmem, heq⟩
    exact ⟨line, hmem, by simpa using heq⟩
  · rintro ⟨line, hmem, heq⟩
    exact ⟨line, hmem, by simpa using heq⟩

/-- C1 (amended): if some line of the successfully-read authorized-keys
content trims to the trimmed candidate key, zero writes are performed;
otherwise exactly one write occurs - and in both remaining cases (content
read but key not present, or file absent/unreadable) its payload is just
the trimmed key line terminated by a newline.  The previously-read
content is not part of the payload: the write replaces the whole file. -/
theorem copy_ssh_key_writes :
    (∀ key auth, (∃ line ∈ splitlines auth, pyStrip line = pyStrip key) →
      copy_ssh_key key (.ok auth) = []) ∧
    (∀ key auth, (¬ ∃ line ∈ splitlines auth, pyStrip line = pyStrip key) →
      copy_ssh_key key (.ok auth) = [pyStrip key ++ ['\n']]) ∧
    (∀ key, copy_ssh_key key (.error ()) = [pyStrip key ++ ['\n']]) := by
  refine ⟨?_, ?_, fun key => rfl⟩
  · intro key auth h
    have hpres : is_key_present auth (pyStrip key) = true := by
      rw [is_key_present_iff]
      obtain ⟨line, hm, he⟩ := h
      exact ⟨line, hm, by rw [he, pyStrip_idem]⟩
    unfold copy_ssh_key
    simp [hpres]
  · intro key auth h
    have hpres : is_key_present auth (pyStrip key) = false := by
      rw [← Bool.not_eq_true, is_key_present_iff]
      rintro ⟨line, hm, he⟩
      exact h ⟨line, hm, by rw [he, pyStrip_idem]⟩
    unfold copy_ssh_key
    simp [hpres]

/-- C1 witness: a key already present (after trimming) yields zero
writes. -/
theorem copy_ssh_key_writes_witness :
    copy_ssh_key ("ssh-ed25519 AAA u@h\n".toList)
      (.ok ("ssh-ed25519 AAA u@h\n".toList)) = [] :=
  copy_ssh_key_writes.1 _ _ (by decide)

/-- C1 counterexample: the authorized-keys file is read successfully with
content "k0\n" and candidate key "k1"; the single write's payload is just
"k1\n", not the previously-read content concatenated with the new key
line, refuting the claimed concatenation. -/
theorem copy_ssh_key_not_concat :
    copy_ssh_key ['k', '1'] (.ok ['k', '0', '\n']) = [['k', '1', '\n']] ∧
    (['k', '1', '\n'] : List Char) ≠ ['k', '0', '\n'] ++ ['k', '1', '\n'] :=
  ⟨by decide, by decide⟩

/-- If every read before iteration `i` (relative to start index `k`) keeps
the loop going and the read of iteration `i` is a present, different PID,
the loop returns it after `k + i + 1` sleeps. -/
theorem pollLoop_first_change (old_pid : Int) (reads : Nat → Option Int) :
    ∀ (fuel k i : Nat) (v : Int), i < fuel →
      (∀ j, j < i → pollReadUnchanged old_pid (reads (k + j)) = true) →
      reads (k + i) = some v → v ≠ old_pid →
      pollLoop old_pid reads k fuel = ⟨.ok v, k + i + 1⟩ := by
  intro fuel
  induction fuel with
  | zero => intro k i v hi _ _ _; exact absurd hi (by omega)
  | succ fuel ih =>
    intro k i v hi hpre hread hne
    cases i with
    | zero =>
      rw [Nat.add_zero] at hread
      unfold pollLoop
      rw [hread]
      simp [hne]
    | succ i' =>
      have h0 : pollReadUnchanged old_pid (reads k) = true := by
        have := hpre 0 (by omega)
        simpa using this
      have happly : pollLoop old_pid reads (k + 1) fuel = ⟨.ok v, k + (i' + 1) + 1⟩ := by
        have hres := ih (k + 1) i' v (by omega)
          (fun j hj => by
            have := hpre (j + 1) (by omega)
            rwa [show k + (j + 1) = k + 1 + j by omega] at this)
          (by rwa [show k + 1 + i' = k + (i' + 1) by omega])
          hne
        rwa [show k + 1 + i' + 1 = k + (i' + 1) + 1 by omega] at hres
      unfold pollLoop
      cases hr : reads k with
      | none => exact happly
      | some v0 =>
        have hv0 : v0 = old_pid := by
          rw [hr] at h0
          simpa [pollReadUnchanged] using h0
        simp [hv0, happly]

/-- If every read of the loop keeps it going, the loop exhausts its
`fuel` iterations (sleeping `fuel` times beyond the `k` already counted)
and the final read at index `k + fuel` decides the outcome. -/
theorem pollLoop_timeout (old_pid : Int) (reads : Nat → Option Int) :
    ∀ (fuel k : Nat),
      (∀ j, j < fuel → pollReadUnchanged old_pid (reads (k + j)) = true) →
      pollLoop old_pid reads k fuel =
        (match reads (k + fuel) with
         | none => ⟨.error (.pidFileMissing (k + fuel)), k + fuel⟩
         | some v =>
           if v = old_pid then ⟨.error (.pidUnchanged old_pid (k + fuel)), k + fuel⟩
           else ⟨.ok v, k + fuel⟩) := by
  intro fuel
  induction fuel with
  | zero =>
    intro k _
    simp only [Nat.add_zero]
    rfl
  | succ fuel ih =>
    intro k hpre
    have h0 : pollReadUnchanged old_pid (reads k) = true := by
      have := hpre 0 (by omega)
      simpa using this
    have happly := ih (k + 1)
      (fun j hj => by
        have := hpre (j + 1) (by omega)
        rwa [show k + (j + 1) = k + 1 + j by omega] at this)
    rw [show k + 1 + fuel = k + (fuel + 1) by omega] at happly
    unfold pollLoop
    cases hr : reads k with
    | none => exact happly
    | some v0 =>
      have hv0 : v0 = old_pid := by
        rw [hr] at h0
        simpa [pollReadUnchanged] using h0
      simp [hv0, happly]

/-- C2: the polling loop sleeps one second before each re-read and returns
the first read that is present and different from the captured PID (after
`i + 1` sleeps when it happens at 0-based iteration `i`); if all
`timeout_s` iterations keep the loop going, one final read decides the
outcome - absent gives the pid-file-missing failure and a value equal to
the captured PID gives the pid-unchanged failure, both after exactly
`timeout_s` sleeps.  `restart_openssh_server` runs this poll with
`timeout_s = timeout_ms // 1000` after its restart command.  In
particular, captured PID 1234 with reads 1234, 1234, 1234, 5678 returns
5678 after exactly 4 sleeps, and all reads 1234 with `timeout_s = 3`
raises the pid-unchanged failure after exactly 3 sleeps. -/
theorem poll_pid_change_spec :
    (∀ (old_pid : Int) (timeout_s : Nat) (reads : Nat → Option Int) (i : Nat) (v : Int),
      i < timeout_s →
      (∀ j, j < i → pollReadUnchanged old_pid (reads j) = true) →
      reads i = some v → v ≠ old_pid →
      poll_pid_change old_pid timeout_s reads = ⟨.ok v, i + 1⟩) ∧
    (∀ (old_pid : Int) (timeout_s : Nat) (reads : Nat → Option Int),
      (∀ j, j < timeout_s → pollReadUnchanged old_pid (reads j) = true) →
      (reads timeout_s = none →
        poll_pid_change old_pid timeout_s reads =
          ⟨.error (.pidFileMissing timeout_s), timeout_s⟩) ∧
      (reads timeout_s = some old_pid →
        poll_pid_change old_pid timeout_s reads =
          ⟨.error (.pidUnchanged old_pid timeout_s), timeout_s⟩)) ∧
    (∀ (timeout_ms : Nat) (fileReads : Nat → Except Unit (List Char)) (p : Int),
      read_sshd_pid (fileReads 0) = some p →
      restart_openssh_server timeout_ms fileReads =
        (match (poll_pid_change p (timeout_ms / 1000)
            (fun i => read_sshd_pid (fileReads (i + 1)))).result with
         | .ok _ => ⟨.ok 0, 1,
             (poll_pid_change p (timeout_ms / 1000)
               (fun i => read_sshd_pid (fileReads (i + 1)))).sleeps⟩
         | .error e => ⟨.error (.poll e), 1,
             (poll_pid_change p (timeout_ms / 1000)
               (fun i => read_sshd_pid (fileReads (i + 1)))).sleeps⟩)) ∧
    poll_pid_change 1234 5 (fun i => if i < 3 then some 1234 else some 5678) =
      ⟨.ok 5678, 4⟩ ∧
    poll_pid_change 1234 3 (fun _ => some 1234) =
      ⟨.error (.pidUnchanged 1234 3), 3⟩ := by
  refine ⟨?_, ?_, ?_, ?_, ?_⟩
  · intro old_pid timeout_s reads i v hi hpre hread hne
    have := pollLoop_first_change old_pid reads timeout_s 0 i v hi
      (fun j hj => by simpa using hpre j hj) (by simpa using hread) hne
    simpa [poll_pid_change] using this
  · intro old_pid timeout_s reads hpre
    have := pollLoop_timeout old_pid reads timeout_s 0
      (fun j hj => by simpa using hpre j hj)
    simp only [Nat.zero_add] at this
    constructor
    · intro hnone
      rw [poll_pid_change, this, hnone]
    · intro hsome
      rw [poll_pid_change, this, hsome]
      simp
  · intro timeout_ms fileReads p h
    unfold restart_openssh_server
    rw [h]
  · rfl
  · rfl

/-- C2 witness: the concrete 1234-then-5678 sequence from the claim. -/
theorem poll_pid_change_spec_witness :
    poll_pid_change 1234 5 (fun i => if i < 3 then some 1234 else some 5678) =
      ⟨.ok 5678, 4⟩ :=
  poll_pid_change_spec.1 1234 5 (fun i => if i < 3 then some 1234 else some 5678)
    3 5678 (by decide) (by decide) (by decide) (by decide)

/-- Decoding one little-endian u32 prefix recovers the packed value below
2^32 and the remaining bytes. -/
theorem readU32le_u32le (n : Nat) (rest : List Nat) (h : n < 4294967296) :
    readU32le (u32le n ++ rest) = some (n, rest) := by
  unfold u32le readU32le
  simp only [List.cons_append, List.nil_append]
  have : n % 256 + 256 * (n / 256 % 256) + 65536 * (n / 65536 % 256) +
      16777216 * (n / 16777216 % 256) = n := by omega
  rw [this]

/-- Reading a NUL-terminated string of its own length recovers it and the
remaining bytes. -/
theorem readNulStr_append (s rest : List Nat) :
    readNulStr s.length (s ++ 0 :: rest) = some (s, rest) := by
  unfold readNulStr
  rw [List.take_left, List.drop_left]
  simp

/-- C7: for all path, working-directory and argument strings, the record
built by `run_command` is the three little-endian u32 length prefixes of
the UTF-8 encodings followed by the three NUL-terminated UTF-8 strings in
order, and (provided each length fits in 32 bits) decoding the record by
offset arithmetic recovers the three UTF-8 strings unchanged. -/
theorem startProcessData_roundtrip
    (p d c : List Char)
    (hp : (utf8 p).length < 4294967296)
    (hd : (utf8 d).length < 4294967296)
    (hc : (utf8 c).length < 4294967296) :
    startProcessData p d c =
      u32le (utf8 p).length ++ u32le (utf8 d).length ++ u32le (utf8 c).length ++
        utf8 p ++ [0] ++ utf8 d ++ [0] ++ utf8 c ++ [0] ∧
    decodeStartProcess (startProcessData p d c) = some (utf8 p, utf8 d, utf8 c) := by
  constructor
  · rfl
  · have hshape : startProcessData p d c =
        u32le (utf8 p).length ++ (u32le (utf8 d).length ++ (u32le (utf8 c).length ++
          (utf8 p ++ 0 :: (utf8 d ++ 0 :: (utf8 c ++ 0 :: []))))) := by
      unfold startProcessData
      simp [List.append_assoc]
    rw [hshape]
    simp only [decodeStartProcess, readU32le_u32le _ _ hp, readU32le_u32le _ _ hd,
      readU32le_u32le _ _ hc, readNulStr_append, if_true]

/-- C7 witness: the record for the spec's example strings decodes to the
three UTF-8 strings. -/
theorem startProcessData_roundtrip_witness :
    decodeStartProcess (startProcessData ("powershell.exe".toList)
        ("C:/temp".toList) ("-Command Get-Service".toList)) =
      some (utf8 ("powershell.exe".toList), utf8 ("C:/temp".toList),
        utf8 ("-Command Get-Service".toList)) :=
  (startProcessData_roundtrip ("powershell.exe".toList) ("C:/temp".toList)
    ("-Command Get-Service".toList) (by decide) (by decide) (by decide)).2

/-- After an attempt whose outcome is retried, the loop moves to the next
attempt, having slept exactly when more attempts remain. -/
theorem sshLoop_step (outcomes : Nat → SshAttempt) (max_retries attempt sleeps fuel : Nat)
    (h : retryableAttempt (outcomes attempt) = true) :
    sshLoop outcomes max_retries attempt sleeps (fuel + 1) =
      sshLoop outcomes max_retries (attempt + 1)
        (if attempt < max_retries then sleeps + 1 else sleeps) fuel := by
  simp only [sshLoop]
  cases ho : outcomes attempt with
  | exited rc =>
    have hrc : ¬ rc = 0 := by
      rw [ho] at h
      simpa [retryableAttempt] using h
    simp [hrc]
  | sshMissing =>
    rw [ho] at h
    simp [retryableAttempt] at h
  | timedOut => rfl
  | failed => rfl

/-- The loop never reports more attempts than it has fuel for. -/
theorem sshLoop_attempts_le (outcomes : Nat → SshAttempt) (max_retries : Nat) :
    ∀ (fuel attempt sleeps : Nat),
      (sshLoop outcomes max_retries attempt sleeps fuel).attempts ≤ attempt + fuel - 1 := by
  intro fuel
  induction fuel with
  | zero => intro a s; simp [sshLoop]
  | succ fuel ih =>
    intro a s
    by_cases h : retryableAttempt (outcomes a) = true
    · rw [sshLoop_step outcomes max_retries a s fuel h]
      have := ih (a + 1) (if a < max_retries then s + 1 else s)
      omega
    · simp only [sshLoop]
      cases ho : outcomes a with
      | exited rc =>
        have hrc : rc = 0 := by
          rw [ho] at h
          simpa [retryableAttempt] using h
        simp [hrc]
      | sshMissing => simp
      | timedOut => rw [ho] at h; simp [retryableAttempt] at h
      | failed => rw [ho] at h; simp [retryableAttempt] at h

/-- Main loop characterisation under the invariant of the real call
(`attempt + fuel = max_retries + 1`, sleeps so far accumulated in
`sleeps`): either every attempt up to `max_retries` is retried and the
loop returns `False` after `fuel - 1` further sleeps, or the first
non-retried attempt `k` decides the result after `k - attempt` further
sleeps - with no sleep after attempt `k` itself. -/
theorem sshLoop_spec (outcomes : Nat → SshAttempt) (max_retries : Nat) :
    ∀ (fuel attempt sleeps : Nat), attempt + fuel = max_retries + 1 → 1 ≤ attempt →
      ((∀ j, attempt ≤ j → j ≤ max_retries → retryableAttempt (outcomes j) = true) →
        1 ≤ fuel →
        sshLoop outcomes max_retries attempt sleeps fuel =
          ⟨.ok false, max_retries, sleeps + (fuel - 1)⟩) ∧
      (∀ k, attempt ≤ k → k ≤ max_retries →
        (∀ j, attempt ≤ j → j < k → retryableAttempt (outcomes j) = true) →
        (outcomes k = .exited 0 →
          sshLoop outcomes max_retries attempt sleeps fuel =
            ⟨.ok true, k, sleeps + (k - attempt)⟩) ∧
        (outcomes k = .sshMissing →
          sshLoop outcomes max_retries attempt sleeps fuel =
            ⟨.error (), k, sleeps + (k - attempt)⟩)) := by
  intro fuel
  induction fuel with
  | zero =>
    intro attempt sleeps hinv h1
    constructor
    · intro _ hf
      exact absurd hf (by omega)
    · intro k hak hkm _
      exact absurd (le_trans hak hkm) (by omega)
  | succ fuel ih =>
    intro attempt sleeps hinv h1
    have hattempt_le : attempt ≤ max_retries := by omega
    constructor
    · intro hall _
      have hretry : retryableAttempt (outcomes attempt) = true :=
        hall attempt (le_refl _) hattempt_le
      rw [sshLoop_step outcomes max_retries attempt sleeps fuel hretry]
      by_cases hf : fuel = 0
      · subst hf
        have hmax : attempt = max_retries := by omega
        have hlt : ¬ attempt < max_retries := by omega
        simp only [if_neg hlt, sshLoop]
        rw [hmax]
        simp
      · have hlt : attempt < max_retries := by omega
        rw [if_pos hlt]
        have hres := (ih (attempt + 1) (sleeps + 1) (by omega) (by omega)).1
          (fun j hj hjm => hall j (by omega) hjm) (by omega)
        rw [hres]
        have : sleeps + 1 + (fuel - 1) = sleeps + (fuel + 1 - 1) := by omega
        rw [this]
    · intro k hak hkm hpre
      by_cases hk : k = attempt
      · subst hk
        constructor
        · intro ho
          simp only [sshLoop]
          rw [ho]
          simp
        · intro ho
          simp only [sshLoop]
          rw [ho]
          simp
      · have hkgt : attempt < k := by omega
        have hretry : retryableAttempt (outcomes attempt) = true :=
          hpre attempt (le_refl _) hkgt
        have hfuel : 1 ≤ fuel := by omega
        have hlt : attempt < max_retries := by omega
        rw [sshLoop_step outcomes max_retries attempt sleeps fuel hretry, if_pos hlt]
        have hres := (ih (attempt + 1) (sleeps + 1) (by omega) (by omega)).2
          k (by omega) hkm (fun j hj hjk => hpre j (by omega) hjk)
        have harith : sleeps + 1 + (k - (attempt + 1)) = sleeps + (k - attempt) := by
          omega
        constructor
        · intro ho
          rw [(hres.1 ho), harith]
        · intro ho
          rw [(hres.2 ho), harith]

/-- C9: `test_ssh_connection` makes at most `max_retries` subprocess
attempts, sleeping one second after each failed attempt except the last
(so sleeps = attempts - 1 in every outcome below); when every attempt
fails in a retryable way (nonzero exit, timeout, or other exception) it
returns `False` after exactly `max_retries` attempts; the first attempt
that exits with code 0 makes it return `True` immediately; and a missing
ssh executable at attempt `k` propagates `FileNotFoundError` immediately,
with no further attempts and no further sleep. -/
theorem test_ssh_connection_spec :
    (∀ (outcomes : Nat → SshAttempt) (max_retries : Nat),
      (test_ssh_connection outcomes max_retries).attempts ≤ max_retries) ∧
    (∀ (outcomes : Nat → SshAttempt) (max_retries : Nat), 1 ≤ max_retries →
      (∀ j, j ≤ max_retries → 1 ≤ j → retryableAttempt (outcomes j) = true) →
      test_ssh_connection outcomes max_retries =
        ⟨.ok false, max_retries, max_retries - 1⟩) ∧
    (∀ (outcomes : Nat → SshAttempt) (max_retries k : Nat), 1 ≤ k → k ≤ max_retries →
      (∀ j, j < k → 1 ≤ j → retryableAttempt (outcomes j) = true) →
      (outcomes k = .exited 0 →
        test_ssh_connection outcomes max_retries = ⟨.ok true, k, k - 1⟩) ∧
      (outcomes k = .sshMissing →
        test_ssh_connection outcomes max_retries = ⟨.error (), k, k - 1⟩)) := by
  refine ⟨?_, ?_, ?_⟩
  · intro outcomes max_retries
    have := sshLoop_attempts_le outcomes max_retries max_retries 1 0
    unfold test_ssh_connection
    omega
  · intro outcomes max_retries hmax hall
    have := (sshLoop_spec outcomes max_retries max_retries 1 0 (by omega) (by omega)).1
      (fun j hj hjm => hall j hjm hj) (by omega)
    unfold test_ssh_connection
    rw [this]
    have : 0 + (max_retries - 1) = max_retries - 1 := by omega
    rw [this]
  · intro outcomes max_retries k h1 hkm hpre
    have hres := (sshLoop_spec outcomes max_retries max_retries 1 0 (by omega) (by omega)).2
      k h1 hkm (fun j hj hjk => hpre j hjk hj)
    have harith : 0 + (k - 1) = k - 1 := by omega
    constructor
    · intro ho
      unfold test_ssh_connection
      rw [hres.1 ho, harith]
    · intro ho
      unfold test_ssh_connection
      rw [hres.2 ho, harith]

/-- C9 witness: attempt 1 fails, attempt 2 exits 0 - `True` after 2
attempts and 1 sleep. -/
theorem test_ssh_connection_spec_witness :
    test_ssh_connection (fun a => if a = 2 then .exited 0 else .failed) 3 =
      ⟨.ok true, 2, 1⟩ :=
  (test_ssh_connection_spec.2.2 (fun a => if a = 2 then .exited 0 else .failed)
    3 2 (by decide) (by decide) (by decide)).1 (by decide)

/-- C10: `run_command` derives its process and argument fields by splitting
the command at the first whitespace run: for a command containing any
non-whitespace character the process field is the first
whitespace-delimited token (leading whitespace skipped) and the argument
field is the remainder with that run of whitespace removed (empty when
nothing follows) - so an executable path containing spaces cannot be
expressed - and the empty command with the default empty working
directory sends empty process, workdir and argument fields (a record of
three zero length prefixes and three NUL terminators only). -/
theorem run_command_split :
    (runCommandParts [] = ([], []) ∧
      (run_command [] [] 5000 true).2.2 = List.replicate 15 0) ∧
    (∀ command : List Char, (∃ ch ∈ command, isPySpace ch = false) →
      runCommandParts command =
        ((command.dropWhile isPySpace).takeWhile (fun c => !(isPySpace c)),
         ((command.dropWhile isPySpace).dropWhile
           (fun c => !(isPySpace c))).dropWhile isPySpace)) := by
  constructor
  · exact ⟨rfl, by decide⟩
  · intro command hex
    have hs1 : command.dropWhile isPySpace ≠ [] := by
      rw [Ne, List.dropWhile_eq_nil_iff]
      push_neg
      obtain ⟨ch, hm, hf⟩ := hex
      exact ⟨ch, hm, by simp [hf]⟩
    have h1gen : ∀ (s : List Char) (m : Nat), s.dropWhile isPySpace ≠ [] →
        pySplitWs s (m + 1) =
          (s.dropWhile isPySpace).takeWhile (fun c => !(isPySpace c)) ::
            pySplitWs ((s.dropWhile isPySpace).dropWhile
              (fun c => !(isPySpace c))) m := by
      intro s m hne
      simp only [pySplitWs]
      rw [if_neg hne]
    have h1 : pySplitWs command 1 =
        (command.dropWhile isPySpace).takeWhile (fun c => !(isPySpace c)) ::
          pySplitWs ((command.dropWhile isPySpace).dropWhile
            (fun c => !(isPySpace c))) 0 := h1gen command 0 hs1
    have h0 : ∀ r : List Char, pySplitWs r 0 =
        if r.dropWhile isPySpace = [] then ([] : List (List Char))
        else [r.dropWhile isPySpace] := by
      intro r
      simp only [pySplitWs]
    unfold runCommandParts
    rw [h1, h0]
    by_cases hrest : ((command.dropWhile isPySpace).dropWhile
        (fun c => !(isPySpace c))).dropWhile isPySpace = []
    · rw [if_pos hrest, hrest]
    · rw [if_neg hrest]

/-- C10 witness: the command "a b" gives process "a" and arguments "b". -/
theorem run_command_split_witness :
    runCommandParts ['a', ' ', 'b'] = (['a'], ['b']) :=
  (run_command_split.2 ['a', ' ', 'b'] ⟨'a', by decide, by decide⟩).trans (by decide)
